import Mathlib

/-!
Shallow embedding of `src/src/main.rs` (app_status_rust): a reconciliation
loop that watches systemd services and mirrors their status onto a fixed
pool of 11 LED slots on a Particle device.

Modelling conventions:
* The Rust `HashMap<String, App>` is modelled as an association list in
  insertion order (the Rust iteration order is unspecified; none of the
  proved properties depends on the order chosen).
* The Rust `Vec<i8>` pool is used only as a stack (`push`/`pop` at the end);
  it is modelled with the top of the stack at the HEAD of the list, so the
  initial pool `(1..12).collect()` = vec![1,…,11] becomes [11,…,1].
* `i8` slot numbers are modelled as `Int` (the program only moves the
  values 1..11 around; no arithmetic is performed on them).
* External effects (spawning `systemctl`, the HTTP call to the Particle
  cloud, environment variables) are inputs: a probe outcome per service
  name, an `Option String` for `DEVICE_NAME`, and a call-outcome function
  whose result the program only logs.
-/

/-- Status of a watched service (`enum Status` in the source). -/
inductive Status where
  | Online : Status
  | Offline : Status
  | Errored : Status
  | Unknown : Status
deriving DecidableEq, Repr

/-- One tracked service (`struct App` in the source). -/
structure App where
  name : String
  last_status : Status
  led_num : Option Int
deriving DecidableEq, Repr

/-- Deserialized response of a Particle cloud function call
(`struct ParticleFnResult` in the source); the program only logs it. -/
structure ParticleFnResult where
  id : String
  name : String
  connected : Bool
  return_value : Int
deriving DecidableEq, Repr

/-- Record of one `update_app` invocation during a tick: the service name,
the new status passed in, and the remote operation name actually sent
(`none` when the outbound call was skipped because no LED slot or no
`DEVICE_NAME` was available). -/
structure Act where
  name : String
  status : Status
  sentOp : Option String
deriving DecidableEq, Repr

/-- Mutable state of the main loop: the tracking map `app_statuses`
(association list, insertion order) and the free-slot pool
`available_led_nums` (stack, top at head). -/
structure LoopState where
  app_statuses : List (String × App)
  available_led_nums : List Int
deriving DecidableEq, Repr

/-- Outcome of spawning `/usr/bin/systemctl status <name>` for one service:
the spawn itself can fail, waiting on the child can fail, or the child runs
with some exit-success flag and `read_to_end` either fails (`none`) or
captures a byte vector. -/
inductive SpawnResult where
  | spawn_err : SpawnResult
  | wait_err : SpawnResult
  | ran : Bool → Option (List Nat) → SpawnResult
deriving DecidableEq, Repr

/-! ### Character-level string helpers

Lean's own `String.splitOn` and substring search do not reduce inside the
kernel, so the Rust `str::split` and `str::contains` are embedded as
structural recursions over the character list. -/

/-- Character-list version of `str::starts_with`. -/
def leadsWith : List Char → List Char → Bool
  | [], _ => true
  | _ :: _, [] => false
  | x :: xs, y :: ys => x = y && leadsWith xs ys

/-- Character-list version of `str::contains` (needle, then haystack). -/
def containsSeq (needle : List Char) : List Char → Bool
  | [] => leadsWith needle []
  | c :: rest => leadsWith needle (c :: rest) || containsSeq needle rest

/-- Rust `haystack.contains(needle)` on `String`. -/
def strContains (haystack needle : String) : Bool :=
  containsSeq needle.data haystack.data

/-- Accumulator for `splitComma`; `cur` holds the current field reversed. -/
def splitCommaAux : List Char → List Char → List String
  | [], cur => [String.mk cur.reverse]
  | c :: rest, cur =>
    if c = ',' then String.mk cur.reverse :: splitCommaAux rest []
    else splitCommaAux rest (c :: cur)

/-- Rust `s.split(",")`: note that splitting the empty string yields the
one-element list [""], exactly as in Rust. -/
def splitComma (s : String) : List String :=
  splitCommaAux s.data []

/-! ### UTF-8 decoding

The Rust code validates the captured bytes with `String::from_utf8`. The
standard UTF-8 decoder is embedded as a byte-at-a-time state machine
(`needed` continuation bytes outstanding, partial code point `cp`, minimum
code point `minCp` for the overlong check, accumulated characters
reversed in `acc`). -/

/-- UTF-8 decoding state machine over a byte list. -/
def utf8DecodeAux : List Nat → Nat → Nat → Nat → List Char → Option (List Char)
  | [], 0, _, _, acc => some acc.reverse
  | [], _ + 1, _, _, _ => none
  | b :: rest, 0, _, _, acc =>
    if b < 0x80 then utf8DecodeAux rest 0 0 0 (Char.ofNat b :: acc)
    else if b < 0xC0 then none
    else if b < 0xE0 then utf8DecodeAux rest 1 (b - 0xC0) 0x80 acc
    else if b < 0xF0 then utf8DecodeAux rest 2 (b - 0xE0) 0x800 acc
    else if b < 0xF8 then utf8DecodeAux rest 3 (b - 0xF0) 0x10000 acc
    else none
  | b :: rest, 1, cp, minCp, acc =>
    if 0x80 ≤ b ∧ b < 0xC0 then
      let cp2 := cp * 0x40 + (b - 0x80)
      if cp2 < minCp ∨ (0xD800 ≤ cp2 ∧ cp2 < 0xE000) ∨ 0x10FFFF < cp2 then none
      else utf8DecodeAux rest 0 0 0 (Char.ofNat cp2 :: acc)
    else none
  | b :: rest, n + 2, cp, minCp, acc =>
    if 0x80 ≤ b ∧ b < 0xC0 then
      utf8DecodeAux rest (n + 1) (cp * 0x40 + (b - 0x80)) minCp acc
    else none

/-- Rust `String::from_utf8` on a byte list: `none` on invalid UTF-8. -/
def utf8Decode (bs : List Nat) : Option String :=
  (utf8DecodeAux bs 0 0 0 []).map fun cs => String.mk cs

/-- Bytes of an ASCII string, for concrete probe outcomes in examples. -/
def asciiBytes (s : String) : List Nat :=
  s.data.map fun c => c.toNat

/-! ### The program itself -/

/-- Embedding of `systemctl_capture`: spawn failure and wait failure
propagate as errors (the `?` operators); the exit code is captured but
IGNORED (the `match exitcode.success()` in the source is commented out);
a failed `read_to_end` or an empty capture yields the "stdout empty"
error; bytes that are not valid UTF-8 yield the "Invalid utf8" error. -/
def systemctl_capture : SpawnResult → Except String String
  | .spawn_err => .error "spawn failed"
  | .wait_err => .error "wait failed"
  | .ran _exit_success (some stdout) =>
    if stdout.length > 0 then
      match utf8Decode stdout with
      | some s => .ok s
      | none => .error "Invalid utf8 data in stdout"
    else .error "systemctl stdout empty"
  | .ran _exit_success none => .error "systemctl stdout empty"

/-- True exactly when `systemctl_capture` returns an error. -/
def captureFails (r : SpawnResult) : Bool :=
  match systemctl_capture r with
  | .ok _ => false
  | .error _ => true

/-- Embedding of `systemctl_capture_to_status`. -/
def systemctl_capture_to_status (capture : String) : Status :=
  if strContains capture "Active: active" then Status.Online
  else if strContains capture "Active: inactive" then Status.Offline
  else Status.Errored

/-- Embedding of `get_status_fn`. -/
def get_status_fn (status : Status) : String :=
  match status with
  | Status.Online => "setOnline"
  | Status.Offline => "setOffline"
  | Status.Errored => "setOffline"
  | Status.Unknown => "setUndefined"

/-- Embedding of `get_statuses`: `apps` is the `APPS` environment variable
(`none` when unset, defaulted to "" by `unwrap_or`), `probe` gives the
outcome of `systemctl status <name>` for each name this tick. Probe
failures are silently dropped by the `filter_map`. -/
def get_statuses (apps : Option String) (probe : String → SpawnResult) :
    List (String × Status) :=
  (splitComma (apps.getD "")).filterMap fun service_name =>
    match systemctl_capture (probe service_name) with
    | .ok capture => some (service_name, systemctl_capture_to_status capture)
    | .error _ => none

/-- Embedding of `update_app`: the new status is stored into
`last_status` FIRST, unconditionally; the outbound Particle call happens
only when both an LED slot and `DEVICE_NAME` are present, and its outcome
`call_result` is only logged (it does not influence the state). Returns
the updated `App` and the remote operation name sent (`none` if the call
was skipped). -/
def update_app (_token : String) (app : App) (new_status : Status)
    (device : Option String) (_call_result : Except String ParticleFnResult) :
    App × Option String :=
  match app.led_num, device with
  | some _led, some _device =>
    ({ app with last_status := new_status }, some (get_status_fn new_status))
  | _, _ => ({ app with last_status := new_status }, none)

/-- Lookup in the tracking association list (`HashMap::entry` lookup). -/
def lookupEntry : List (String × App) → String → Option App
  | [], _ => none
  | (n, a) :: rest, name => if n = name then some a else lookupEntry rest name

/-- Replacement of the entry stored under `name` (the in-place mutation
through the `&mut App` reference returned by `or_insert`). -/
def setEntry : List (String × App) → String → App → List (String × App)
  | [], _, _ => []
  | (n, b) :: rest, name, a =>
    if n = name then (n, a) :: rest else (n, b) :: setEntry rest name a

/-- Embedding of the first `for` loop of a tick ("Frees up an LED if a
process status is no longer present"): every tracked name absent from
this tick's probed `names` is removed via `remove_entry`, and its LED, if
it held one, is pushed onto the pool. Returns the surviving entries and
the new pool. -/
def reclaimPass : List (String × App) → List String → List Int →
    List (String × App) × List Int
  | [], _, pool => ([], pool)
  | (n, a) :: rest, names, pool =>
    if names.contains n then
      let r := reclaimPass rest names pool
      ((n, a) :: r.1, r.2)
    else
      match a.led_num with
      | some l => reclaimPass rest names (l :: pool)
      | none => reclaimPass rest names pool

/-- Embedding of the second `for` loop of a tick. Rust evaluates the
argument of `or_insert` EAGERLY, so `available_led_nums.pop()` runs for
every probed pair, even when the entry already exists — in that case the
popped slot is discarded with the unused `App` value. On a vacant entry
the freshly built `App {last_status: Unknown, led_num: pop()}` is
inserted; then `update_app` runs when `last_status != status`. Returns
the entries, the pool, and the list of `update_app` invocations. -/
def updatePass (token : String) (device : Option String)
    (outs : String → Except String ParticleFnResult) :
    List (String × App) → List Int → List (String × Status) →
    List (String × App) × List Int × List Act
  | entries, pool, [] => (entries, pool, [])
  | entries, pool, (app_name, status) :: rest =>
    let popped : Option Int := pool.head?
    let pool1 : List Int := pool.tail
    match lookupEntry entries app_name with
    | none =>
      let app0 : App := ⟨app_name, Status.Unknown, popped⟩
      if app0.last_status ≠ status then
        let r := update_app token app0 status device (outs app_name)
        let u := updatePass token device outs (entries ++ [(app_name, r.1)]) pool1 rest
        (u.1, u.2.1, ⟨app_name, status, r.2⟩ :: u.2.2)
      else
        updatePass token device outs (entries ++ [(app_name, app0)]) pool1 rest
    | some a =>
      if a.last_status ≠ status then
        let r := update_app token a status device (outs app_name)
        let u := updatePass token device outs (setEntry entries app_name r.1) pool1 rest
        (u.1, u.2.1, ⟨app_name, status, r.2⟩ :: u.2.2)
      else
        updatePass token device outs entries pool1 rest

/-- One iteration of the main `loop`: the reclaim pass runs first on the
names of this tick's `status_map`, then the update pass runs on the
resulting entries and pool. Returns the new state and the `update_app`
invocations made. -/
def tick (token : String) (st : LoopState) (status_map : List (String × Status))
    (device : Option String) (outs : String → Except String ParticleFnResult) :
    LoopState × List Act :=
  let r := reclaimPass st.app_statuses (status_map.map Prod.fst) st.available_led_nums
  let u := updatePass token device outs r.1 r.2 status_map
  (⟨u.1, u.2.1⟩, u.2.2)

/-- Slot identifiers 1..11, the value set of `(1..12).collect()`. -/
def ledIds : List Int :=
  (List.range 11).map fun i => (i : Int) + 1

/-- State at the top of `main` before the first tick: empty tracking map,
full pool `(1..12).collect()` (top of the Vec-stack at the head). -/
def initialState : LoopState :=
  ⟨[], ledIds.reverse⟩

/-- External inputs consumed by one tick. -/
structure TickInput where
  status_map : List (String × Status)
  device : Option String
  outs : String → Except String ParticleFnResult

/-- State after running the loop on a list of per-tick inputs. -/
def runTicks (token : String) : LoopState → List TickInput → LoopState
  | st, [] => st
  | st, i :: is => runTicks token (tick token st i.status_map i.device i.outs).1 is

/-- State after `n` ticks that all receive the same inputs. -/
def iterTick (token : String) (sm : List (String × Status)) (device : Option String)
    (outs : String → Except String ParticleFnResult) : Nat → LoopState → LoopState
  | 0, st => st
  | n + 1, st => iterTick token sm device outs n (tick token st sm device outs).1

/-! ### Derived observations used by the claims -/

/-- LED slots currently held by tracked services, in entry order. -/
def assignedLeds (entries : List (String × App)) : List Int :=
  entries.filterMap fun p => p.2.led_num

/-- Status recorded for `name` (`Unknown` when `name` is untracked, since
a fresh entry is created with `last_status = Unknown`). -/
def recordedStatus (entries : List (String × App)) (name : String) : Status :=
  match lookupEntry entries name with
  | some a => a.last_status
  | none => Status.Unknown

/-- Free-or-assigned partition claimed for the slot identifiers: every
slot in 1..11 is either in the pool and assigned to no tracked service,
or absent from the pool and assigned to exactly one tracked service. -/
def ledPartitionHolds (st : LoopState) : Prop :=
  ∀ l ∈ ledIds,
    (l ∈ st.available_led_nums ∧ (assignedLeds st.app_statuses).count l = 0) ∨
    (l ∉ st.available_led_nums ∧ (assignedLeds st.app_statuses).count l = 1)

/-- Probe results coming from one probe function assign equal names equal
statuses. -/
def keyConsistent (sm : List (String × Status)) : Prop :=
  ∀ p ∈ sm, ∀ q ∈ sm, p.1 = q.1 → p.2 = q.2

/-- Every probed pair is already tracked with exactly its probed status. -/
def stableFor (sm : List (String × Status)) (entries : List (String × App)) : Prop :=
  ∀ p ∈ sm, ∃ a, lookupEntry entries p.1 = some a ∧ a.last_status = p.2

/-- Modelled from the spec and claim C5's wording: the probe for one
service is said to fail exactly on "external command cannot be spawned or
found, the execution is non-zero/aborted, the captured output is empty,
or the output is not valid UTF-8 text". -/
def probe_fails_per_claim (r : SpawnResult) : Bool :=
  match r with
  | .spawn_err => true
  | .wait_err => true
  | .ran exit_success stdout =>
    !exit_success ||
      match stdout with
      | none => true
      | some bs => bs.isEmpty || (utf8Decode bs).isNone

/-- Failure condition actually implemented by `systemctl_capture`: spawn,
wait or read failure, empty captured output, or invalid UTF-8 — the exit
code plays no role. -/
def probe_fails_amended (r : SpawnResult) : Bool :=
  match r with
  | .spawn_err => true
  | .wait_err => true
  | .ran _ stdout =>
    match stdout with
    | none => true
    | some bs => bs.isEmpty || (utf8Decode bs).isNone

/-- Call-outcome function for concrete runs: every Particle call fails at
transport (the program ignores the outcome either way). -/
def noCalls : String → Except String ParticleFnResult :=
  fun _ => Except.error "transport"

/-- Probe outcome for concrete runs: every service runs and reports an
active unit. -/
def probeActive : String → SpawnResult :=
  fun _ => SpawnResult.ran true (some (asciiBytes "Active: active (running)"))

/-- Multiset of slot identifiers present in a pool plus those assigned in
an entry list; `tick` can only shrink it. -/
def ledMS (entries : List (String × App)) (pool : List Int) : Multiset Int :=
  (pool : Multiset Int) + (assignedLeds entries : Multiset Int)

/-- Multiset of slot identifiers present anywhere in a loop state. -/
def stateMS (st : LoopState) : Multiset Int :=
  ledMS st.app_statuses st.available_led_nums

instance (st : LoopState) : Decidable (ledPartitionHolds st) := by
  unfold ledPartitionHolds; exact inferInstance

instance (sm : List (String × Status)) : Decidable (keyConsistent sm) := by
  unfold keyConsistent; exact inferInstance

example : utf8Decode (asciiBytes "Active: active (running)") =
    some "Active: active (running)" := by decide
example : utf8Decode [0xFF] = none := by decide
example : splitComma "" = [""] := by decide
example : splitComma "a,b" = ["a", "b"] := by decide
example : strContains "xx Active: active yy" "Active: active" = true := by decide

/-! ### C1: the free-or-assigned slot partition -/

/-- C1: the claim that every slot identifier in 1..11 stays in the
free-or-assigned partition at every point of the loop is FALSE on the
code: when service "a" is probed Online on two consecutive ticks, the
second tick's `or_insert` argument still evaluates
`available_led_nums.pop()` eagerly although "a" is already tracked, and
the popped slot 10 is discarded — after that tick slot 10 is neither in
the pool nor assigned to any tracked service. -/
theorem C1_partition_violated_by_eager_pop :
    ¬ ledPartitionHolds
      (tick "" (tick "" initialState [("a", Status.Online)] none noCalls).1
        [("a", Status.Online)] none noCalls).1 := by
  decide

/-! ### C7: the status classifier -/

/-- C7: the classifier is a pure function of the probe text: text
containing "Active: active" maps to Online; otherwise text containing
"Active: inactive" maps to Offline; all remaining text maps to Errored. -/
theorem C7_classifier_cases : ∀ s : String,
    (strContains s "Active: active" = true →
      systemctl_capture_to_status s = Status.Online) ∧
    (strContains s "Active: active" = false →
      strContains s "Active: inactive" = true →
      systemctl_capture_to_status s = Status.Offline) ∧
    (strContains s "Active: active" = false →
      strContains s "Active: inactive" = false →
      systemctl_capture_to_status s = Status.Errored) := by
  intro s
  refine ⟨fun h1 => ?_, fun h1 h2 => ?_, fun h1 h2 => ?_⟩ <;>
    simp [systemctl_capture_to_status, h1]
  · simp [h2]
  · simp [h2]

/-- Witness for C7 at three concrete probe texts, one per classifier
branch. -/
theorem C7_classifier_cases_witness :
    (strContains "Active: active (running)" "Active: active" = true ∧
      systemctl_capture_to_status "Active: active (running)" = Status.Online) ∧
    (strContains "Active: inactive (dead)" "Active: active" = false ∧
      strContains "Active: inactive (dead)" "Active: inactive" = true ∧
      systemctl_capture_to_status "Active: inactive (dead)" = Status.Offline) ∧
    (strContains "Active: failed" "Active: active" = false ∧
      strContains "Active: failed" "Active: inactive" = false ∧
      systemctl_capture_to_status "Active: failed" = Status.Errored) :=
  ⟨⟨by decide, (C7_classifier_cases _).1 (by decide)⟩,
   ⟨by decide, by decide, (C7_classifier_cases _).2.1 (by decide) (by decide)⟩,
   ⟨by decide, by decide, (C7_classifier_cases _).2.2 (by decide) (by decide)⟩⟩

/-! ### C9: update_app always records the new status -/

/-- C9: `update_app` stores the new status into `last_status` in every
case — it does so whether the outbound call is skipped (no LED slot or no
DEVICE_NAME, i.e. the sent operation is `none`) or performed, and the
resulting state does not depend on the call outcome at all (so a failed
call rolls nothing back). -/
theorem C9_update_app_always_records :
    ∀ (token : String) (app : App) (new_status : Status)
      (device : Option String) (res₁ res₂ : Except String ParticleFnResult),
    (update_app token app new_status device res₁).1.last_status = new_status ∧
    ((update_app token app new_status device res₁).2 = none ↔
      (app.led_num = none ∨ device = none)) ∧
    update_app token app new_status device res₁ =
      update_app token app new_status device res₂ := by
  intro token app new_status device res₁ res₂
  cases app with
  | mk n ls led =>
    cases led <;> cases device <;> simp [update_app]

/-! ### C5: probe failure conditions -/

/-- C5 counterexample: the claim says a non-zero/aborted execution makes
the probe fail, but `systemctl_capture` ignores the exit code (the check
is commented out in the source): a run with exit-success = false whose
stdout is the non-empty valid text "x" still succeeds. -/
theorem C5_counterexample_exit_code_ignored :
    captureFails (SpawnResult.ran false (some (asciiBytes "x"))) ≠
      probe_fails_per_claim (SpawnResult.ran false (some (asciiBytes "x"))) := by
  decide

/-- C5 amended: the probe for one service fails exactly when the spawn
fails, waiting on the child fails, reading its stdout fails, the captured
output is empty, or the output is not valid UTF-8 — the exit code plays
no role; and a service whose probe fails is omitted from the tick's
(name, status) results. -/
theorem C5_amended_probe_failure :
    (∀ r : SpawnResult, captureFails r = probe_fails_amended r) ∧
    (∀ (apps : Option String) (probe : String → SpawnResult) (name : String)
      (st : Status),
      captureFails (probe name) = true → (name, st) ∉ get_statuses apps probe) := by
  constructor
  · intro r
    cases r with
    | spawn_err => rfl
    | wait_err => rfl
    | ran e stdout =>
      cases stdout with
      | none => rfl
      | some bs =>
        cases bs with
        | nil => rfl
        | cons b rest =>
          simp only [captureFails, systemctl_capture, probe_fails_amended,
            List.length_cons, List.isEmpty_cons]
          cases h : utf8Decode (b :: rest) <;> simp [h]
  · intro apps probe name st hfail hmem
    simp only [get_statuses, List.mem_filterMap] at hmem
    obtain ⟨sn, _hsn, heq⟩ := hmem
    cases hc : systemctl_capture (probe sn) with
    | error e => rw [hc] at heq; simp at heq
    | ok s =>
      rw [hc] at heq
      simp only [Option.some.injEq, Prod.mk.injEq] at heq
      obtain ⟨rfl, _⟩ := heq
      simp [captureFails, hc] at hfail

/-- Witness for C5's amended theorem: a spawn failure for "a" keeps
("a", Online) out of the probe results. -/
theorem C5_amended_probe_failure_witness :
    captureFails ((fun _ => SpawnResult.spawn_err) "a") = true ∧
    ("a", Status.Online) ∉ get_statuses (some "a") (fun _ => SpawnResult.spawn_err) :=
  ⟨by decide,
    C5_amended_probe_failure.2 (some "a") (fun _ => SpawnResult.spawn_err) "a"
      Status.Online (by decide)⟩

/-! ### C6: empty APPS configuration -/

/-- C6 counterexample: with APPS unset, the code splits "" into the
single empty service name "" and probes it; if that probe succeeds (here:
an active-looking capture), `get_statuses` yields a pair for the empty
name, contradicting the claim that it produces no pairs. -/
theorem C6_counterexample_empty_name_probed :
    get_statuses none probeActive = [("", Status.Online)] ∧
    get_statuses none probeActive ≠ [] := by
  exact ⟨by decide, by decide⟩

/-- C6 amended: with APPS unset or empty, the single probed name is the
empty string; provided that probe fails (as a real `systemctl status ""`
does, printing nothing to stdout), `get_statuses` yields no pairs, and a
tick on those empty results leaves the initial state untouched with no
service tracked and no slot allocated. -/
theorem C6_amended_empty_apps :
    ∀ probe : String → SpawnResult, captureFails (probe "") = true →
    ∀ apps : Option String, (apps = none ∨ apps = some "") →
      get_statuses apps probe = [] ∧
      ∀ (token : String) (device : Option String)
        (outs : String → Except String ParticleFnResult),
        tick token initialState (get_statuses apps probe) device outs =
          (initialState, []) := by
  intro probe hfail apps happs
  have hsplit : splitComma ((apps.getD "")) = [""] := by
    rcases happs with h | h <;> subst h <;> decide
  have hget : get_statuses apps probe = [] := by
    simp only [get_statuses, hsplit, List.filterMap]
    cases hc : systemctl_capture (probe "") with
    | error e => rfl
    | ok s => simp [captureFails, hc] at hfail
  refine ⟨hget, ?_⟩
  intro token device outs
  rw [hget]
  rfl

/-- Witness for C6's amended theorem at a probe whose child cannot be
awaited. -/
theorem C6_amended_empty_apps_witness :
    captureFails ((fun _ => SpawnResult.wait_err) "") = true ∧
    get_statuses none (fun _ => SpawnResult.wait_err) = [] ∧
    tick "" initialState (get_statuses none (fun _ => SpawnResult.wait_err))
      none noCalls = (initialState, []) :=
  ⟨by decide,
    (C6_amended_empty_apps (fun _ => SpawnResult.wait_err) (by decide) none
      (Or.inl rfl)).1,
    (C6_amended_empty_apps (fun _ => SpawnResult.wait_err) (by decide) none
      (Or.inl rfl)).2 "" none noCalls⟩

/-! ### C2: reclaim pass runs before the update pass -/

/-- Slots already in the pool survive the reclaim pass. -/
theorem reclaimPass_pool_mono :
    ∀ (entries : List (String × App)) (names : List String) (pool : List Int)
      (x : Int), x ∈ pool → x ∈ (reclaimPass entries names pool).2 := by
  intro entries
  induction entries with
  | nil => intro names pool x hx; exact hx
  | cons e rest ih =>
    intro names pool x hx
    obtain ⟨n, a⟩ := e
    by_cases h : names.contains n
    · simp only [reclaimPass, h, if_pos]
      exact ih names pool x hx
    · simp only [reclaimPass, h]
      cases hl : a.led_num with
      | some l =>
        simp only [Bool.false_eq_true, if_false]
        exact ih names (l :: pool) x (List.mem_cons_of_mem _ hx)
      | none =>
        simp only [Bool.false_eq_true, if_false]
        exact ih names pool x hx

/-- The slot of every tracked service whose name is absent from this
tick's probed names is pushed into the pool by the reclaim pass. -/
theorem reclaimPass_releases :
    ∀ (entries : List (String × App)) (names : List String) (pool : List Int)
      (name : String) (a : App) (l : Int),
    (name, a) ∈ entries → a.led_num = some l → names.contains name = false →
    l ∈ (reclaimPass entries names pool).2 := by
  intro entries
  induction entries with
  | nil => intro names pool name a l hmem; cases hmem
  | cons e rest ih =>
    intro names pool name a l hmem hled habs
    obtain ⟨n, b⟩ := e
    rcases List.mem_cons.mp hmem with heq | hrest
    · rw [Prod.mk.injEq] at heq
      obtain ⟨rfl, rfl⟩ := heq
      simp only [reclaimPass, habs, Bool.false_eq_true, if_false, hled]
      exact reclaimPass_pool_mono rest names (l :: pool) l (List.mem_cons_self _ _)
    · by_cases h : names.contains n
      · simp only [reclaimPass, h, if_pos]
        exact ih names pool name a l hrest hled habs
      · simp only [reclaimPass, h]
        cases hl : b.led_num with
        | some l2 =>
          simp only [Bool.false_eq_true, if_false]
          exact ih names (l2 :: pool) name a l hrest hled habs
        | none =>
          simp only [Bool.false_eq_true, if_false]
          exact ih names pool name a l hrest hled habs

/-- C2: within a tick the reclaim pass completes before the update pass
(`tick` literally feeds the reclaimed entries and pool into the update
pass), and the slot of a departing tracked service is in the pool that
the update pass allocates from — so it is available, in the same tick,
to a newly appearing service. -/
theorem C2_reclaim_before_update :
    ∀ (token : String) (st : LoopState) (sm : List (String × Status))
      (device : Option String) (outs : String → Except String ParticleFnResult)
      (name : String) (a : App) (l : Int),
    (name, a) ∈ st.app_statuses → a.led_num = some l →
    (sm.map Prod.fst).contains name = false →
    l ∈ (reclaimPass st.app_statuses (sm.map Prod.fst) st.available_led_nums).2 ∧
    tick token st sm device outs =
      (⟨(updatePass token device outs
          (reclaimPass st.app_statuses (sm.map Prod.fst) st.available_led_nums).1
          (reclaimPass st.app_statuses (sm.map Prod.fst) st.available_led_nums).2 sm).1,
        (updatePass token device outs
          (reclaimPass st.app_statuses (sm.map Prod.fst) st.available_led_nums).1
          (reclaimPass st.app_statuses (sm.map Prod.fst) st.available_led_nums).2 sm).2.1⟩,
        (updatePass token device outs
          (reclaimPass st.app_statuses (sm.map Prod.fst) st.available_led_nums).1
          (reclaimPass st.app_statuses (sm.map Prod.fst) st.available_led_nums).2 sm).2.2) := by
  intro token st sm device outs name a l hmem hled habs
  exact ⟨reclaimPass_releases st.app_statuses (sm.map Prod.fst)
    st.available_led_nums name a l hmem hled habs, rfl⟩

/-- Witness for C2: service "a" holds slot 5, the pool is otherwise
empty, and "a" departs while "b" appears; slot 5 is in the reclaimed pool
and, as the tick evaluation shows, "b" ends the tick holding slot 5. -/
theorem C2_reclaim_before_update_witness :
    ((("a" : String), (⟨"a", Status.Online, some 5⟩ : App)) ∈
      (⟨[("a", ⟨"a", Status.Online, some 5⟩)], []⟩ : LoopState).app_statuses ∧
    (⟨"a", Status.Online, some 5⟩ : App).led_num = some 5 ∧
    (([("b", Status.Online)].map Prod.fst).contains "a") = false) ∧
    ((5 : Int) ∈ (reclaimPass [("a", ⟨"a", Status.Online, some 5⟩)]
      ([("b", Status.Online)].map Prod.fst) []).2) ∧
    lookupEntry (tick "" ⟨[("a", ⟨"a", Status.Online, some 5⟩)], []⟩
      [("b", Status.Online)] none noCalls).1.app_statuses "b" =
      some ⟨"b", Status.Online, some 5⟩ := by
  refine ⟨⟨by decide, by decide, by decide⟩, ?_, by decide⟩
  exact (C2_reclaim_before_update "" ⟨[("a", ⟨"a", Status.Online, some 5⟩)], []⟩
    [("b", Status.Online)] none noCalls "a" ⟨"a", Status.Online, some 5⟩ 5
    (by decide) (by decide) (by decide)).1

/-! ### C10: setUndefined is never sent by the loop -/

/-- Operation sent by one `update_app` call: nothing, or the operation
name derived from the new status. -/
theorem update_app_ops (token : String) (app : App) (s : Status)
    (device : Option String) (res : Except String ParticleFnResult) :
    (update_app token app s device res).2 = none ∨
    (update_app token app s device res).2 = some (get_status_fn s) := by
  unfold update_app
  cases app.led_num <;> cases device <;> simp

/-- Every actuation record produced by the update pass carries the name
and status of one of this tick's probed pairs, and its sent operation, if
any, is `get_status_fn` of that status. -/
theorem updatePass_acts_sound :
    ∀ (pairs : List (String × Status)) (entries : List (String × App))
      (pool : List Int) (token : String) (device : Option String)
      (outs : String → Except String ParticleFnResult) (act : Act),
    act ∈ (updatePass token device outs entries pool pairs).2.2 →
    ∃ p ∈ pairs, act.name = p.1 ∧ act.status = p.2 ∧
      (act.sentOp = none ∨ act.sentOp = some (get_status_fn p.2)) := by
  intro pairs
  induction pairs with
  | nil => intro entries pool token device outs act h; simp [updatePass] at h
  | cons p rest ih =>
    intro entries pool token device outs act h
    obtain ⟨app_name, status⟩ := p
    simp only [updatePass] at h
    split at h
    · -- lookupEntry entries app_name = none
      split at h
      · rcases List.mem_cons.mp h with heq | h2
        · subst heq
          exact ⟨(app_name, status), List.mem_cons_self _ _, rfl, rfl,
            update_app_ops token _ status device (outs app_name)⟩
        · obtain ⟨q, hq, h1, h2', h3⟩ := ih _ _ token device outs act h2
          exact ⟨q, List.mem_cons_of_mem _ hq, h1, h2', h3⟩
      · obtain ⟨q, hq, h1, h2', h3⟩ := ih _ _ token device outs act h
        exact ⟨q, List.mem_cons_of_mem _ hq, h1, h2', h3⟩
    · -- lookupEntry entries app_name = some a
      split at h
      · rcases List.mem_cons.mp h with heq | h2
        · subst heq
          exact ⟨(app_name, status), List.mem_cons_self _ _, rfl, rfl,
            update_app_ops token _ status device (outs app_name)⟩
        · obtain ⟨q, hq, h1, h2', h3⟩ := ih _ _ token device outs act h2
          exact ⟨q, List.mem_cons_of_mem _ hq, h1, h2', h3⟩
      · obtain ⟨q, hq, h1, h2', h3⟩ := ih _ _ token device outs act h
        exact ⟨q, List.mem_cons_of_mem _ hq, h1, h2', h3⟩

/-- The classifier never produces `Unknown`. -/
theorem systemctl_capture_to_status_ne_unknown (s : String) :
    systemctl_capture_to_status s ≠ Status.Unknown := by
  unfold systemctl_capture_to_status
  by_cases h1 : strContains s "Active: active" <;>
    by_cases h2 : strContains s "Active: inactive" <;> simp [h1, h2]

/-- Every status in a tick's probe results is an output of the
classifier. -/
theorem get_statuses_from_classifier :
    ∀ (apps : Option String) (probe : String → SpawnResult) (p : String × Status),
    p ∈ get_statuses apps probe →
    ∃ s : String, p.2 = systemctl_capture_to_status s := by
  intro apps probe p hp
  simp only [get_statuses, List.mem_filterMap] at hp
  obtain ⟨sn, _hsn, heq⟩ := hp
  cases hc : systemctl_capture (probe sn) with
  | error e => rw [hc] at heq; simp at heq
  | ok s =>
    rw [hc] at heq
    simp only [Option.some.injEq] at heq
    exact ⟨s, by rw [← heq]⟩

/-- C10: during a tick fed by `get_statuses`, every outbound Particle
call uses operation setOnline or setOffline — never setUndefined —
because `update_app` is only ever reached with classifier outputs and
the classifier never returns `Unknown`. -/
theorem C10_no_setUndefined :
    ∀ (token : String) (st : LoopState) (apps : Option String)
      (probe : String → SpawnResult) (device : Option String)
      (outs : String → Except String ParticleFnResult) (act : Act) (op : String),
    act ∈ (tick token st (get_statuses apps probe) device outs).2 →
    act.sentOp = some op →
    op = "setOnline" ∨ op = "setOffline" := by
  intro token st apps probe device outs act op hmem hop
  simp only [tick] at hmem
  obtain ⟨p, hp, _, _, hsent⟩ :=
    updatePass_acts_sound (get_statuses apps probe) _ _ token device outs act hmem
  rcases hsent with hnone | hsome
  · rw [hop] at hnone; cases hnone
  · rw [hop] at hsome
    injection hsome with h
    obtain ⟨s, hs⟩ := get_statuses_from_classifier apps probe p hp
    rw [h, hs]
    cases hq : systemctl_capture_to_status s with
    | Online => exact Or.inl rfl
    | Offline => exact Or.inr rfl
    | Errored => exact Or.inr rfl
    | Unknown => exact absurd hq (systemctl_capture_to_status_ne_unknown s)

/-- Witness for C10: a concrete tick that really sends an operation; the
operation is setOnline. -/
theorem C10_no_setUndefined_witness :
    (⟨"a", Status.Online, some "setOnline"⟩ : Act) ∈
      (tick "" initialState (get_statuses (some "a") probeActive)
        (some "dev") noCalls).2 ∧
    (Act.sentOp ⟨"a", Status.Online, some "setOnline"⟩ = some "setOnline") ∧
    ("setOnline" = "setOnline" ∨ "setOnline" = "setOffline") :=
  ⟨by decide, by decide,
    C10_no_setUndefined "" initialState (some "a") probeActive (some "dev")
      noCalls ⟨"a", Status.Online, some "setOnline"⟩ "setOnline"
      (by decide) (by decide)⟩

/-! ### C3: actuation exactly on status transitions -/

/-- Appending a fresh entry does not change lookups of other names. -/
theorem lookupEntry_append_other :
    ∀ (entries : List (String × App)) (n₁ name : String) (app : App),
    name ≠ n₁ → lookupEntry (entries ++ [(n₁, app)]) name = lookupEntry entries name := by
  intro entries
  induction entries with
  | nil =>
    intro n₁ name app hne
    simp only [List.nil_append, lookupEntry]
    rw [if_neg (fun h => hne h.symm)]
  | cons e rest ih =>
    intro n₁ name app hne
    obtain ⟨n, b⟩ := e
    by_cases h : n = name
    · simp only [List.cons_append, lookupEntry, if_pos h]
    · simp only [List.cons_append, lookupEntry, if_neg h]
      exact ih n₁ name app hne

/-- Appending a fresh entry makes its own name found. -/
theorem lookupEntry_append_self :
    ∀ (entries : List (String × App)) (n₁ : String) (app : App),
    lookupEntry entries n₁ = none →
    lookupEntry (entries ++ [(n₁, app)]) n₁ = some app := by
  intro entries
  induction entries with
  | nil => intro n₁ app _; simp [lookupEntry]
  | cons e rest ih =>
    intro n₁ app habs
    obtain ⟨n, b⟩ := e
    by_cases h : n = n₁
    · simp only [lookupEntry, if_pos h] at habs
      cases habs
    · simp only [lookupEntry, if_neg h] at habs
      simp only [List.cons_append, lookupEntry, if_neg h]
      exact ih n₁ app habs

/-- Replacing the entry of one name does not change lookups of others. -/
theorem lookupEntry_setEntry_other :
    ∀ (entries : List (String × App)) (n₁ name : String) (a : App),
    name ≠ n₁ → lookupEntry (setEntry entries n₁ a) name = lookupEntry entries name := by
  intro entries
  induction entries with
  | nil => intro n₁ name a _; rfl
  | cons e rest ih =>
    intro n₁ name a hne
    obtain ⟨n, b⟩ := e
    by_cases h : n = n₁
    · have hn : n ≠ name := fun hc => hne (hc.symm.trans h)
      simp only [setEntry, if_pos h, lookupEntry, if_neg hn]
    · simp only [setEntry, if_neg h, lookupEntry]
      by_cases h2 : n = name
      · simp only [if_pos h2]
      · simp only [if_neg h2]
        exact ih n₁ name a hne

/-- Replacing the entry of a present name makes the new value found. -/
theorem lookupEntry_setEntry_self :
    ∀ (entries : List (String × App)) (n₁ : String) (a b : App),
    lookupEntry entries n₁ = some b →
    lookupEntry (setEntry entries n₁ a) n₁ = some a := by
  intro entries
  induction entries with
  | nil => intro n₁ a b h; cases h
  | cons e rest ih =>
    intro n₁ a b h
    obtain ⟨n, c⟩ := e
    by_cases hn : n = n₁
    · simp only [setEntry, if_pos hn, lookupEntry, if_pos hn]
    · simp only [lookupEntry, if_neg hn] at h
      simp only [setEntry, if_neg hn, lookupEntry, if_neg hn]
      exact ih n₁ a b h

/-- The reclaim pass does not change lookups of names present in this
tick's probe results. -/
theorem lookupEntry_reclaimPass :
    ∀ (entries : List (String × App)) (names : List String) (pool : List Int)
      (name : String), names.contains name = true →
    lookupEntry (reclaimPass entries names pool).1 name = lookupEntry entries name := by
  intro entries
  induction entries with
  | nil => intro names pool name _; rfl
  | cons e rest ih =>
    intro names pool name hc
    obtain ⟨n, b⟩ := e
    by_cases h : names.contains n
    · simp only [reclaimPass, h, if_pos, lookupEntry]
      by_cases h2 : n = name
      · simp only [if_pos h2]
      · simp only [if_neg h2]
        exact ih names pool name hc
    · have hn : n ≠ name := fun hcc => h (hcc ▸ hc)
      simp only [reclaimPass, h, Bool.false_eq_true, if_false, lookupEntry, if_neg hn]
      cases hl : b.led_num with
      | some l => exact ih names (l :: pool) name hc
      | none => exact ih names pool name hc

/-- Every actuation record's name is one of this tick's probed names. -/
theorem updatePass_act_names
    (pairs : List (String × Status)) (entries : List (String × App))
    (pool : List Int) (token : String) (device : Option String)
    (outs : String → Except String ParticleFnResult) (act : Act)
    (h : act ∈ (updatePass token device outs entries pool pairs).2.2) :
    act.name ∈ pairs.map Prod.fst := by
  obtain ⟨p, hp, h1, _, _⟩ := updatePass_acts_sound pairs entries pool token device outs act h
  exact h1 ▸ List.mem_map_of_mem Prod.fst hp

/-- Acts headed by a record for a different name contain a record for
`name` exactly when the tail does. -/
theorem exists_name_cons_ne (hd : Act) (tl : List Act) (name : String)
    (hne : hd.name ≠ name) :
    (∃ act ∈ hd :: tl, act.name = name) ↔ (∃ act ∈ tl, act.name = name) := by
  constructor
  · rintro ⟨act, hact, hnm⟩
    rcases List.mem_cons.mp hact with heq | h2
    · exact absurd (heq ▸ hnm) hne
    · exact ⟨act, h2, hnm⟩
  · rintro ⟨act, h2, hnm⟩
    exact ⟨act, List.mem_cons_of_mem _ h2, hnm⟩

/-- Core of C3, stated over the update pass: for probe pairs with
distinct names, `update_app` is invoked for a pair's name exactly when
its status differs from the status recorded in the entries the pass
started from (an untracked name counting as `Unknown`). -/
theorem updatePass_transition_iff :
    ∀ (pairs : List (String × Status)) (entries : List (String × App))
      (pool : List Int) (token : String) (device : Option String)
      (outs : String → Except String ParticleFnResult)
      (name : String) (status : Status),
    (pairs.map Prod.fst).Nodup → (name, status) ∈ pairs →
    ((∃ act ∈ (updatePass token device outs entries pool pairs).2.2,
        act.name = name) ↔
      status ≠ recordedStatus entries name) := by
  intro pairs
  induction pairs with
  | nil => intro _ _ _ _ _ name status _ hmem; cases hmem
  | cons p rest ih =>
    intro entries pool token device outs name status hnd hmem
    obtain ⟨n₁, s₁⟩ := p
    rw [List.map_cons] at hnd
    obtain ⟨hn₁, hndr⟩ := List.nodup_cons.mp hnd
    rcases List.mem_cons.mp hmem with heq | hrest
    · -- the target pair is the head
      rw [Prod.mk.injEq] at heq
      obtain ⟨rfl, rfl⟩ := heq
      simp only [updatePass]
      split
      · -- untracked: a fresh entry is inserted with lastStatus Unknown
        next heq =>
        have hrec : recordedStatus entries name = Status.Unknown := by
          simp [recordedStatus, heq]
        split
        · next hcond =>
          refine iff_of_true ⟨_, List.mem_cons_self _ _, rfl⟩ ?_
          rw [hrec]
          exact Ne.symm hcond
        · next hcond =>
          have hstat : Status.Unknown = status := not_not.mp hcond
          refine iff_of_false ?_ ?_
          · rintro ⟨act, hact, hnm⟩
            exact hn₁ (hnm ▸ updatePass_act_names rest _ _ token device outs act hact)
          · intro hne
            exact hne (by rw [hrec]; exact hstat.symm)
      · -- already tracked
        next a heq =>
        have hrec : recordedStatus entries name = a.last_status := by
          simp [recordedStatus, heq]
        split
        · next hcond =>
          refine iff_of_true ⟨_, List.mem_cons_self _ _, rfl⟩ ?_
          rw [hrec]
          exact Ne.symm hcond
        · next hcond =>
          have hstat : a.last_status = status := not_not.mp hcond
          refine iff_of_false ?_ ?_
          · rintro ⟨act, hact, hnm⟩
            exact hn₁ (hnm ▸ updatePass_act_names rest _ _ token device outs act hact)
          · intro hne
            exact hne (by rw [hrec]; exact hstat.symm)
    · -- the target pair sits in the tail
      have hname_mem : name ∈ rest.map Prod.fst := List.mem_map_of_mem Prod.fst hrest
      have hne : name ≠ n₁ := fun hc => hn₁ (hc ▸ hname_mem)
      simp only [updatePass]
      split
      · next heq =>
        split
        · next hcond =>
          rw [exists_name_cons_ne _ _ _ (fun hc => hne hc.symm)]
          rw [ih _ pool.tail token device outs name status hndr hrest]
          have hrec1 : recordedStatus (entries ++
              [(n₁, (update_app token ⟨n₁, Status.Unknown, pool.head?⟩ s₁ device (outs n₁)).1)]) name =
              recordedStatus entries name := by
            simp [recordedStatus, lookupEntry_append_other entries n₁ name _ hne]
          rw [hrec1]
        · next hcond =>
          rw [ih _ pool.tail token device outs name status hndr hrest]
          have hrec1 : recordedStatus (entries ++ [(n₁, ⟨n₁, Status.Unknown, pool.head?⟩)]) name =
              recordedStatus entries name := by
            simp [recordedStatus, lookupEntry_append_other entries n₁ name _ hne]
          rw [hrec1]
      · next a heq =>
        split
        · next hcond =>
          rw [exists_name_cons_ne _ _ _ (fun hc => hne hc.symm)]
          rw [ih _ pool.tail token device outs name status hndr hrest]
          have hrec1 : recordedStatus
              (setEntry entries n₁ (update_app token a s₁ device (outs n₁)).1) name =
              recordedStatus entries name := by
            simp [recordedStatus, lookupEntry_setEntry_other entries n₁ name _ hne]
          rw [hrec1]
        · next hcond =>
          rw [ih _ pool.tail token device outs name status hndr hrest]

/-- C3: for every (name, status) pair in a tick's probe results (one pair
per name), `update_app` is called for that service in this tick exactly
when the probed status differs from the service's recorded `last_status`
at the start of the tick — a not-yet-tracked service counting as
`Unknown`, so its first classified status counts as a transition. -/
theorem C3_actuation_iff_transition :
    ∀ (token : String) (st : LoopState) (sm : List (String × Status))
      (device : Option String) (outs : String → Except String ParticleFnResult)
      (name : String) (status : Status),
    (sm.map Prod.fst).Nodup → (name, status) ∈ sm →
    ((∃ act ∈ (tick token st sm device outs).2, act.name = name) ↔
      status ≠ recordedStatus st.app_statuses name) := by
  intro token st sm device outs name status hnd hmem
  have hcontains : (sm.map Prod.fst).contains name = true :=
    List.elem_eq_true_of_mem (List.mem_map_of_mem Prod.fst hmem)
  have hlk := lookupEntry_reclaimPass st.app_statuses (sm.map Prod.fst)
    st.available_led_nums name hcontains
  have hrec : recordedStatus
      (reclaimPass st.app_statuses (sm.map Prod.fst) st.available_led_nums).1 name =
      recordedStatus st.app_statuses name := by
    simp [recordedStatus, hlk]
  simp only [tick]
  rw [updatePass_transition_iff sm _ _ token device outs name status hnd hmem, hrec]

/-- Witness for C3: on the very first tick, service "a" is untracked
(recorded status `Unknown`), so probing it Online is a transition and an
actuation attempt exists for it. -/
theorem C3_actuation_iff_transition_witness :
    (([("a", Status.Online)].map Prod.fst).Nodup ∧
      ("a", Status.Online) ∈ [("a", Status.Online)]) ∧
    ((∃ act ∈ (tick "" initialState [("a", Status.Online)] none noCalls).2,
        act.name = "a") ↔
      Status.Online ≠ recordedStatus initialState.app_statuses "a") :=
  ⟨⟨by decide, by decide⟩,
    C3_actuation_iff_transition "" initialState [("a", Status.Online)] none
      noCalls "a" Status.Online (by decide) (by decide)⟩

/-! ### C8: idempotence under unchanged probe results -/

/-- Helper: `update_app` stores the new status. -/
theorem update_app_last (token : String) (app : App) (s : Status)
    (device : Option String) (res : Except String ParticleFnResult) :
    (update_app token app s device res).1.last_status = s := by
  rcases app with ⟨n, ls, led⟩
  cases led <;> cases device <;> rfl

/-- The update pass does not change the entry of a name that is absent
from this tick's pairs. -/
theorem updatePass_lookup_other :
    ∀ (pairs : List (String × Status)) (entries : List (String × App))
      (pool : List Int) (token : String) (device : Option String)
      (outs : String → Except String ParticleFnResult) (name : String),
    name ∉ pairs.map Prod.fst →
    lookupEntry (updatePass token device outs entries pool pairs).1 name =
      lookupEntry entries name := by
  intro pairs
  induction pairs with
  | nil => intro entries pool token device outs name _; rfl
  | cons q rest ih =>
    intro entries pool token device outs name habs
    obtain ⟨n₁, s₁⟩ := q
    rw [List.map_cons] at habs
    have hne : name ≠ n₁ := fun hc => habs (hc ▸ List.mem_cons_self _ _)
    have habs2 : name ∉ rest.map Prod.fst :=
      fun hc => habs (List.mem_cons_of_mem _ hc)
    simp only [updatePass]
    split
    · next heq =>
      split
      · next hcond =>
        rw [ih _ pool.tail token device outs name habs2]
        exact lookupEntry_append_other entries n₁ name _ hne
      · next hcond =>
        rw [ih _ pool.tail token device outs name habs2]
        exact lookupEntry_append_other entries n₁ name _ hne
    · next a heq =>
      split
      · next hcond =>
        rw [ih _ pool.tail token device outs name habs2]
        exact lookupEntry_setEntry_other entries n₁ name _ hne
      · next hcond =>
        exact ih entries pool.tail token device outs name habs2

/-- After the update pass runs on key-consistent pairs, every pair's name
is tracked with exactly its probed status. -/
theorem updatePass_establishes :
    ∀ (pairs : List (String × Status)) (entries : List (String × App))
      (pool : List Int) (token : String) (device : Option String)
      (outs : String → Except String ParticleFnResult),
    keyConsistent pairs →
    stableFor pairs (updatePass token device outs entries pool pairs).1 := by
  intro pairs
  induction pairs with
  | nil => intro entries pool token device outs _ p hp; cases hp
  | cons q rest ih =>
    intro entries pool token device outs hkc
    obtain ⟨n₁, s₁⟩ := q
    have hkcr : keyConsistent rest := fun p hp q' hq' =>
      hkc p (List.mem_cons_of_mem _ hp) q' (List.mem_cons_of_mem _ hq')
    intro p hp
    rcases List.mem_cons.mp hp with heq | hrest
    · subst heq
      by_cases hmem : n₁ ∈ rest.map Prod.fst
      · obtain ⟨q', hq', hq1⟩ := List.mem_map.mp hmem
        have hs : q'.2 = s₁ :=
          hkc q' (List.mem_cons_of_mem _ hq') (n₁, s₁) (List.mem_cons_self _ _) hq1
        simp only [updatePass]
        split
        · next heq2 =>
          split
          · next hcond =>
            obtain ⟨a, ha1, ha2⟩ := ih _ pool.tail token device outs hkcr q' hq'
            rw [hq1] at ha1
            rw [hs] at ha2
            exact ⟨a, ha1, ha2⟩
          · next hcond =>
            obtain ⟨a, ha1, ha2⟩ := ih _ pool.tail token device outs hkcr q' hq'
            rw [hq1] at ha1
            rw [hs] at ha2
            exact ⟨a, ha1, ha2⟩
        · next a0 heq2 =>
          split
          · next hcond =>
            obtain ⟨a, ha1, ha2⟩ := ih _ pool.tail token device outs hkcr q' hq'
            rw [hq1] at ha1
            rw [hs] at ha2
            exact ⟨a, ha1, ha2⟩
          · next hcond =>
            obtain ⟨a, ha1, ha2⟩ := ih _ pool.tail token device outs hkcr q' hq'
            rw [hq1] at ha1
            rw [hs] at ha2
            exact ⟨a, ha1, ha2⟩
      · simp only [updatePass]
        split
        · next heq2 =>
          split
          · next hcond =>
            refine ⟨(update_app token ⟨n₁, Status.Unknown, pool.head?⟩ s₁ device (outs n₁)).1,
              ?_, update_app_last token _ s₁ device (outs n₁)⟩
            rw [updatePass_lookup_other rest _ pool.tail token device outs n₁ hmem]
            exact lookupEntry_append_self entries n₁ _ heq2
          · next hcond =>
            have hstat : Status.Unknown = s₁ := not_not.mp hcond
            refine ⟨⟨n₁, Status.Unknown, pool.head?⟩, ?_, hstat⟩
            rw [updatePass_lookup_other rest _ pool.tail token device outs n₁ hmem]
            exact lookupEntry_append_self entries n₁ _ heq2
        · next a0 heq2 =>
          split
          · next hcond =>
            refine ⟨(update_app token a0 s₁ device (outs n₁)).1, ?_,
              update_app_last token a0 s₁ device (outs n₁)⟩
            rw [updatePass_lookup_other rest _ pool.tail token device outs n₁ hmem]
            exact lookupEntry_setEntry_self entries n₁ _ a0 heq2
          · next hcond =>
            have hstat : a0.last_status = s₁ := not_not.mp hcond
            refine ⟨a0, ?_, hstat⟩
            rw [updatePass_lookup_other rest _ pool.tail token device outs n₁ hmem]
            exact heq2
    · simp only [updatePass]
      split
      · next heq2 =>
        split
        · next hcond => exact ih _ pool.tail token device outs hkcr p hrest
        · next hcond => exact ih _ pool.tail token device outs hkcr p hrest
      · next a0 heq2 =>
        split
        · next hcond => exact ih _ pool.tail token device outs hkcr p hrest
        · next hcond => exact ih entries pool.tail token device outs hkcr p hrest

/-- On entries already stable for the pairs, the update pass changes no
entry and produces no actuation attempt. -/
theorem updatePass_stable :
    ∀ (pairs : List (String × Status)) (entries : List (String × App))
      (pool : List Int) (token : String) (device : Option String)
      (outs : String → Except String ParticleFnResult),
    stableFor pairs entries →
    (updatePass token device outs entries pool pairs).1 = entries ∧
    (updatePass token device outs entries pool pairs).2.2 = [] := by
  intro pairs
  induction pairs with
  | nil => intro entries pool token device outs _; exact ⟨rfl, rfl⟩
  | cons q rest ih =>
    intro entries pool token device outs hst
    obtain ⟨n₁, s₁⟩ := q
    obtain ⟨a, ha1, ha2⟩ := hst (n₁, s₁) (List.mem_cons_self _ _)
    have hstr : stableFor rest entries := fun p hp => hst p (List.mem_cons_of_mem _ hp)
    simp only [updatePass, ha1]
    rw [if_neg (fun h => h ha2)]
    exact ih entries pool.tail token device outs hstr

/-- One tick on key-consistent probe results leaves the tracking map
stable for those results. -/
theorem tick_establishes (token : String) (st : LoopState)
    (sm : List (String × Status)) (device : Option String)
    (outs : String → Except String ParticleFnResult) (hkc : keyConsistent sm) :
    stableFor sm (tick token st sm device outs).1.app_statuses := by
  simp only [tick]
  exact updatePass_establishes sm _ _ token device outs hkc

/-- A tick on a state already stable for its probe results makes no
actuation attempt. -/
theorem tick_stable_no_acts (token : String) (st : LoopState)
    (sm : List (String × Status)) (device : Option String)
    (outs : String → Except String ParticleFnResult)
    (hst : stableFor sm st.app_statuses) :
    (tick token st sm device outs).2 = [] := by
  have hre : stableFor sm
      (reclaimPass st.app_statuses (sm.map Prod.fst) st.available_led_nums).1 := by
    intro p hp
    obtain ⟨a, h1, h2⟩ := hst p hp
    have hc : (sm.map Prod.fst).contains p.1 = true :=
      List.elem_eq_true_of_mem (List.mem_map_of_mem Prod.fst hp)
    exact ⟨a, (lookupEntry_reclaimPass _ _ _ _ hc).trans h1, h2⟩
  simp only [tick]
  exact (updatePass_stable sm _ _ token device outs hre).2

/-- C8: when every tick receives the same key-consistent probe results,
every tick after the first makes zero actuation attempts: after `n ≥ 1`
identical ticks the next identical tick produces an empty actuation
list. -/
theorem C8_idempotent_ticks :
    ∀ (token : String) (sm : List (String × Status)), keyConsistent sm →
    ∀ (st : LoopState) (device : Option String)
      (outs : String → Except String ParticleFnResult) (n : Nat), 1 ≤ n →
    (tick token (iterTick token sm device outs n st) sm device outs).2 = [] := by
  intro token sm hkc
  have hiter : ∀ (n : Nat) (st : LoopState) (device : Option String)
      (outs : String → Except String ParticleFnResult), 1 ≤ n →
      stableFor sm (iterTick token sm device outs n st).app_statuses := by
    intro n
    induction n with
    | zero => intro st device outs h; exact absurd h (by omega)
    | succ m ihm =>
      intro st device outs _
      rcases Nat.eq_zero_or_pos m with h0 | hpos
      · subst h0
        simp only [iterTick]
        exact tick_establishes token st sm device outs hkc
      · simp only [iterTick]
        exact ihm (tick token st sm device outs).1 device outs hpos
  intro st device outs n hn
  exact tick_stable_no_acts token _ sm device outs (hiter n st device outs hn)

/-- Witness for C8: one service probed Online on every tick; after the
first tick the second tick issues no actuation attempt. -/
theorem C8_idempotent_ticks_witness :
    keyConsistent [("a", Status.Online)] ∧ 1 ≤ 1 ∧
    (tick "" (iterTick "" [("a", Status.Online)] none noCalls 1 initialState)
      [("a", Status.Online)] none noCalls).2 = [] :=
  ⟨by decide, by decide,
    C8_idempotent_ticks "" [("a", Status.Online)] (by decide) initialState
      none noCalls 1 (by decide)⟩

/-! ### C4: slot capacity and exclusivity -/

/-- Helper: `update_app` never changes the LED slot. -/
theorem update_app_led (token : String) (app : App) (s : Status)
    (device : Option String) (res : Except String ParticleFnResult) :
    (update_app token app s device res).1.led_num = app.led_num := by
  rcases app with ⟨n, ls, led⟩
  cases led <;> cases device <;> rfl

/-- Assigned slots of a cons whose head holds a slot. -/
theorem assignedLeds_cons_some (n : String) (a : App) (rest : List (String × App))
    (l : Int) (h : a.led_num = some l) :
    assignedLeds ((n, a) :: rest) = l :: assignedLeds rest := by
  simp [assignedLeds, List.filterMap_cons, h]

/-- Assigned slots of a cons whose head holds no slot. -/
theorem assignedLeds_cons_none (n : String) (a : App) (rest : List (String × App))
    (h : a.led_num = none) :
    assignedLeds ((n, a) :: rest) = assignedLeds rest := by
  simp [assignedLeds, List.filterMap_cons, h]

/-- Assigned slots distribute over appending entry lists. -/
theorem assignedLeds_append (e₁ e₂ : List (String × App)) :
    assignedLeds (e₁ ++ e₂) = assignedLeds e₁ ++ assignedLeds e₂ := by
  simp [assignedLeds, List.filterMap_append]

/-- Replacing an entry with one holding the same slot leaves the assigned
slots unchanged. -/
theorem assignedLeds_setEntry :
    ∀ (entries : List (String × App)) (name : String) (a a' : App),
    lookupEntry entries name = some a → a'.led_num = a.led_num →
    assignedLeds (setEntry entries name a') = assignedLeds entries := by
  intro entries
  induction entries with
  | nil => intro name a a' h _; cases h
  | cons e rest ih =>
    intro name a a' h hled
    obtain ⟨n, b⟩ := e
    by_cases hn : n = name
    · simp only [lookupEntry, if_pos hn] at h
      injection h with hba
      subst hba
      simp only [setEntry, if_pos hn]
      cases hl : b.led_num with
      | some l =>
        rw [assignedLeds_cons_some n a' rest l (hled.trans hl),
          assignedLeds_cons_some n b rest l hl]
      | none =>
        rw [assignedLeds_cons_none n a' rest (hled.trans hl),
          assignedLeds_cons_none n b rest hl]
    · simp only [lookupEntry, if_neg hn] at h
      simp only [setEntry, if_neg hn]
      cases hl : b.led_num with
      | some l =>
        rw [assignedLeds_cons_some n b _ l hl, assignedLeds_cons_some n b rest l hl,
          ih name a a' h hled]
      | none =>
        rw [assignedLeds_cons_none n b _ hl, assignedLeds_cons_none n b rest hl,
          ih name a a' h hled]

/-- Appending an entry holding slot `l` moves `l` between the two sides
of the slot multiset. -/
theorem ledMS_append_some (entries : List (String × App)) (n₁ : String) (a : App)
    (l : Int) (h : a.led_num = some l) (pool : List Int) :
    ledMS (entries ++ [(n₁, a)]) pool = ledMS entries (l :: pool) := by
  simp only [ledMS, assignedLeds_append]
  have h1 : assignedLeds [(n₁, a)] = [l] := by simp [assignedLeds, h]
  rw [h1, ← Multiset.coe_add]
  have h2 : (↑[l] : Multiset Int) = l ::ₘ (↑([] : List Int)) := (Multiset.cons_coe l []).symm
  have h3 : (↑(l :: pool) : Multiset Int) = l ::ₘ ↑pool := (Multiset.cons_coe l pool).symm
  rw [h2, h3, Multiset.coe_nil, Multiset.add_cons, Multiset.add_cons, add_zero,
    Multiset.cons_add]

/-- Appending an entry holding no slot does not change the slot multiset. -/
theorem ledMS_append_none (entries : List (String × App)) (n₁ : String) (a : App)
    (h : a.led_num = none) (pool : List Int) :
    ledMS (entries ++ [(n₁, a)]) pool = ledMS entries pool := by
  simp only [ledMS, assignedLeds_append]
  have h1 : assignedLeds [(n₁, a)] = [] := by simp [assignedLeds, h]
  rw [h1, List.append_nil]

/-- Replacing an entry with one holding the same slot does not change the
slot multiset. -/
theorem ledMS_setEntry (entries : List (String × App)) (name : String) (a a' : App)
    (h : lookupEntry entries name = some a) (hled : a'.led_num = a.led_num)
    (pool : List Int) :
    ledMS (setEntry entries name a') pool = ledMS entries pool := by
  simp only [ledMS, assignedLeds_setEntry entries name a a' h hled]

/-- Discarding the popped slot shrinks the slot multiset. -/
theorem ledMS_pool_le (entries : List (String × App)) (l : Int) (pool : List Int) :
    ledMS entries pool ≤ ledMS entries (l :: pool) := by
  simp only [ledMS]
  have h3 : (↑(l :: pool) : Multiset Int) = l ::ₘ ↑pool := (Multiset.cons_coe l pool).symm
  rw [h3, Multiset.cons_add]
  exact Multiset.le_cons_self _ _

/-- The reclaim pass permutes the slot multiset: released slots move from
the assigned side to the pool side. -/
theorem reclaimPass_ms :
    ∀ (entries : List (String × App)) (names : List String) (pool : List Int),
    ledMS (reclaimPass entries names pool).1 (reclaimPass entries names pool).2 =
      ledMS entries pool := by
  intro entries
  induction entries with
  | nil => intro names pool; rfl
  | cons e rest ih =>
    intro names pool
    obtain ⟨n, a⟩ := e
    by_cases h : names.contains n
    · simp only [reclaimPass, h, if_pos]
      cases hl : a.led_num with
      | some l =>
        have ihms := ih names pool
        simp only [ledMS] at ihms ⊢
        rw [assignedLeds_cons_some n a _ l hl, assignedLeds_cons_some n a rest l hl,
          ← Multiset.cons_coe, ← Multiset.cons_coe, Multiset.add_cons,
          Multiset.add_cons, ihms]
      | none =>
        have ihms := ih names pool
        simp only [ledMS] at ihms ⊢
        rw [assignedLeds_cons_none n a _ hl, assignedLeds_cons_none n a rest hl, ihms]
    · simp only [reclaimPass, h, Bool.false_eq_true, if_false]
      cases hl : a.led_num with
      | some l =>
        have ihms := ih names (l :: pool)
        simp only [ledMS] at ihms ⊢
        rw [assignedLeds_cons_some n a rest l hl, ihms, ← Multiset.cons_coe,
          ← Multiset.cons_coe, Multiset.cons_add, Multiset.add_cons]
      | none =>
        have ihms := ih names pool
        simp only [ledMS] at ihms ⊢
        rw [assignedLeds_cons_none n a rest hl, ihms]

/-- The update pass never grows the slot multiset (the eagerly popped
slot is either assigned to the fresh entry or discarded). -/
theorem updatePass_ms_le :
    ∀ (pairs : List (String × Status)) (entries : List (String × App))
      (pool : List Int) (token : String) (device : Option String)
      (outs : String → Except String ParticleFnResult),
    ledMS (updatePass token device outs entries pool pairs).1
      (updatePass token device outs entries pool pairs).2.1 ≤ ledMS entries pool := by
  intro pairs
  induction pairs with
  | nil => intro entries pool token device outs; exact le_refl _
  | cons q rest ih =>
    intro entries pool token device outs
    obtain ⟨n₁, s₁⟩ := q
    cases pool with
    | nil =>
      simp only [updatePass, List.head?_nil, List.tail_nil]
      split
      · next heq =>
        split
        · next hcond =>
          refine le_trans (ih _ [] token device outs) (le_of_eq ?_)
          exact ledMS_append_none entries n₁ _
            ((update_app_led token _ s₁ device (outs n₁)).trans rfl) []
        · next hcond =>
          refine le_trans (ih _ [] token device outs) (le_of_eq ?_)
          exact ledMS_append_none entries n₁ _ rfl []
      · next a0 heq =>
        split
        · next hcond =>
          refine le_trans (ih _ [] token device outs) (le_of_eq ?_)
          exact ledMS_setEntry entries n₁ a0 _ heq
            (update_app_led token a0 s₁ device (outs n₁)) []
        · next hcond => exact ih entries [] token device outs
    | cons l ls =>
      simp only [updatePass, List.head?_cons, List.tail_cons]
      split
      · next heq =>
        split
        · next hcond =>
          refine le_trans (ih _ ls token device outs) (le_of_eq ?_)
          exact ledMS_append_some entries n₁ _ l
            ((update_app_led token _ s₁ device (outs n₁)).trans rfl) ls
        · next hcond =>
          refine le_trans (ih _ ls token device outs) (le_of_eq ?_)
          exact ledMS_append_some entries n₁ _ l rfl ls
      · next a0 heq =>
        split
        · next hcond =>
          refine le_trans (le_trans (ih _ ls token device outs) (le_of_eq ?_))
            (ledMS_pool_le entries l ls)
          exact ledMS_setEntry entries n₁ a0 _ heq
            (update_app_led token a0 s₁ device (outs n₁)) ls
        · next hcond =>
          exact le_trans (ih entries ls token device outs) (ledMS_pool_le entries l ls)

/-- One tick never grows the slot multiset. -/
theorem tick_ms_le (token : String) (st : LoopState) (sm : List (String × Status))
    (device : Option String) (outs : String → Except String ParticleFnResult) :
    stateMS (tick token st sm device outs).1 ≤ stateMS st := by
  simp only [stateMS, tick]
  refine le_trans (updatePass_ms_le sm _ _ token device outs) (le_of_eq ?_)
  exact reclaimPass_ms st.app_statuses (sm.map Prod.fst) st.available_led_nums

/-- Any run of the loop never grows the slot multiset. -/
theorem runTicks_ms_le (token : String) :
    ∀ (inputs : List TickInput) (st : LoopState),
    stateMS (runTicks token st inputs) ≤ stateMS st := by
  intro inputs
  induction inputs with
  | nil => intro st; exact le_refl _
  | cons i is ihs =>
    intro st
    exact le_trans (ihs _) (tick_ms_le token st i.status_map i.device i.outs)

/-- C4: after any run of the loop from the initial state, at most 11
tracked services hold a slot, no slot identifier is held by two tracked
services, and the pool holds at most 11 slots, all of them among the
initial identifiers 1..11 and pairwise distinct (slots are only returned,
never fabricated). -/
theorem C4_capacity_and_exclusivity :
    ∀ (token : String) (inputs : List TickInput),
    (assignedLeds (runTicks token initialState inputs).app_statuses).length ≤ 11 ∧
    (assignedLeds (runTicks token initialState inputs).app_statuses).Nodup ∧
    (runTicks token initialState inputs).available_led_nums.length ≤ 11 ∧
    (runTicks token initialState inputs).available_led_nums.Nodup ∧
    (∀ l ∈ (runTicks token initialState inputs).available_led_nums, l ∈ ledIds) ∧
    (∀ l ∈ assignedLeds (runTicks token initialState inputs).app_statuses, l ∈ ledIds) := by
  intro token inputs
  have hle : stateMS (runTicks token initialState inputs) ≤ stateMS initialState :=
    runTicks_ms_le token inputs initialState
  have hinit : stateMS initialState = (↑ledIds : Multiset Int) := by
    simp only [stateMS, ledMS, initialState, assignedLeds, List.filterMap_nil,
      Multiset.coe_nil, add_zero, Multiset.coe_reverse]
  rw [hinit] at hle
  have hnodup : (stateMS (runTicks token initialState inputs)).Nodup :=
    Multiset.nodup_of_le hle (Multiset.coe_nodup.mpr (by decide))
  have hcard : Multiset.card (stateMS (runTicks token initialState inputs)) ≤ 11 := by
    have h := Multiset.card_le_card hle
    rw [Multiset.coe_card] at h
    exact le_trans h (by decide)
  have hsplit : stateMS (runTicks token initialState inputs) =
      (↑(runTicks token initialState inputs).available_led_nums : Multiset Int) +
      (↑(assignedLeds (runTicks token initialState inputs).app_statuses) : Multiset Int) := rfl
  refine ⟨?_, ?_, ?_, ?_, ?_, ?_⟩
  · have h := hcard
    rw [hsplit, Multiset.card_add, Multiset.coe_card, Multiset.coe_card] at h
    omega
  · have h := Multiset.nodup_of_le (Multiset.le_add_left _ _) (hsplit ▸ hnodup)
    exact Multiset.coe_nodup.mp h
  · have h := hcard
    rw [hsplit, Multiset.card_add, Multiset.coe_card, Multiset.coe_card] at h
    omega
  · have h := Multiset.nodup_of_le (Multiset.le_add_right _ _) (hsplit ▸ hnodup)
    exact Multiset.coe_nodup.mp h
  · intro l hl
    have hmem : l ∈ stateMS (runTicks token initialState inputs) := by
      rw [hsplit]
      exact Multiset.mem_add.mpr (Or.inl (Multiset.mem_coe.mpr hl))
    exact Multiset.mem_coe.mp (Multiset.mem_of_le hle hmem)
  · intro l hl
    have hmem : l ∈ stateMS (runTicks token initialState inputs) := by
      rw [hsplit]
      exact Multiset.mem_add.mpr (Or.inr (Multiset.mem_coe.mpr hl))
    exact Multiset.mem_coe.mp (Multiset.mem_of_le hle hmem)

/-- Witness for C4 at a concrete one-tick run: slot 10 is still in the
pool and the theorem places it among the legal identifiers 1..11. -/
theorem C4_capacity_and_exclusivity_witness :
    (10 : Int) ∈ (runTicks "" initialState
      [⟨[("a", Status.Online)], none, noCalls⟩]).available_led_nums ∧
    (10 : Int) ∈ ledIds :=
  ⟨by decide,
    (C4_capacity_and_exclusivity "" [⟨[("a", Status.Online)], none, noCalls⟩]).2.2.2.2.1
      10 (by decide)⟩
